import Mathlib

/-!
Teleprobe: verification of spec claims against a shallow embedding.

Shallow embedding, in Lean 4, of the parts of the `embassy-rs/teleprobe`
sources that the spec claims C1..C10 are about:

* the execution dispatcher's timeout computation (`server.rs::handle_run`,
  `config.rs`),
* the panic-hook / catch-unwind machinery (`logutil.rs`) and the dispatcher's
  blocking-worker boundary (`server.rs::run_with_log_capture`),
* the run-mode decision from the chip memory map (`run.rs::Runner::new`),
* the post-run verdict from XPSR (`run.rs::Runner::dump_state`, `Runner::run`),
* the polling loop's termination condition (`run.rs::Runner::run`),
* the RTT attach retry loop (`run.rs::setup_logging_channel`),
* the probe power-reset path (`probe/mod.rs::connect`),
* the probe-selector parse/format pair (`probe/specifier.rs`),
* the ELF metadata extraction (`client.rs::ElfMetadata::from_elf`),
* the defmt-table precondition of `Runner::new`.

Rust strings are embedded as `List Char`, byte strings as `List Nat`
(each element < 256), machine integers as `Nat` with explicit bounds or
`% 2^w` where wrap-around matters, fallible functions as `Option`/`Except`,
and a Rust panic as an explicit outcome constructor distinct from an
ordinary `Err` return.
-/

namespace Teleprobe

/-! ## C1 — dispatcher timeout computation

Source: `src/teleprobe/src/config.rs` lines 7-21 and
`src/teleprobe/src/server.rs` lines 197-200:

`Duration::from_secs(args.timeout.unwrap_or(config.default_timeout).min(config.max_timeout))`
-/

/-- Source function `config.rs::default_default_timeout`. -/
def default_default_timeout : Nat := 10

/-- Source function `config.rs::default_max_timeout`. -/
def default_max_timeout : Nat := 60

/-- The effective timeout in seconds computed by `server.rs::handle_run`
(line 199): `args.timeout.unwrap_or(config.default_timeout).min(config.max_timeout)`.
`args_timeout` is the client's optional `?timeout=` query parameter,
`default_timeout` and `max_timeout` come from the server config. -/
def effective_timeout (args_timeout : Option Nat) (default_timeout max_timeout : Nat) : Nat :=
  Nat.min (args_timeout.getD default_timeout) max_timeout

/-! ## C2 — panic at the blocking-worker boundary

Source: `src/teleprobe/src/logutil.rs` (the vendored `log_panics` module,
`Config::install_panic_hook`, lines 196-243, and the `CATCHING_UNWIND`
thread-local, lines 263-265) and `src/teleprobe/src/server.rs`
`run_with_log_capture`, lines 46-64.

The installed panic hook logs the panic and then aborts the process unless
the `CATCHING_UNWIND` thread-local of the *panicking* thread is `true`
(logutil.rs lines 230-241).  `CATCHING_UNWIND` is initialized to `false`
(`Cell::new(false)`, line 264) and the only place in the whole crate that
sets it to `true` is `CatchUnwind::poll` (line 293) — reachable only through
`FutureExt::ak_catch_unwind`, which no code in the crate calls.  In
particular the closure that `run_with_log_capture` hands to
`spawn_blocking` (server.rs lines 47-55) runs on a tokio blocking-pool
thread whose `CATCHING_UNWIND` still holds the initial value. -/

/-- Result of one engine invocation (`run_firmware_on_device`) as seen from
the worker closure in `run_with_log_capture`: `Ok(())`, `Err(e)`, or a panic
that starts unwinding out of the engine. -/
inductive EngineResult where
  | success : EngineResult
  | failure : EngineResult
  | panics : EngineResult
deriving DecidableEq

/-- What the process-wide panic hook installed by
`logutil.rs::Config::install_panic_hook` does once it has logged the panic:
abort the process iff the panicking thread's `CATCHING_UNWIND` is `false`
(lines 230-241). `true` means the hook calls `abort()`. -/
def panic_hook_aborts (catching_unwind : Bool) : Bool :=
  !catching_unwind

/-- Value of the `CATCHING_UNWIND` thread-local on the tokio blocking-pool
thread that runs the engine: the initial value `false` (`Cell::new(false)`,
logutil.rs line 264).  Nothing on the `run_with_log_capture` path — nor
anywhere else in the crate — executes `CatchUnwind::poll`, the only writer
of `true`. -/
def worker_catching_unwind : Bool := false

/-- Same for the scheduler thread that awaits the `JoinHandle` in
`run_with_log_capture` (server.rs line 56): the warp/tokio handler path
never runs `CatchUnwind::poll` either. -/
def scheduler_catching_unwind : Bool := false

/-- What the blocking worker produces, as observed by
`spawn_blocking(..).await`: a completed closure with the engine's boolean,
a process abort from inside the panic hook, or (hypothetically, were the
hook not to abort) a panic unwinding out of the closure, which tokio would
surface as a `JoinError`. -/
inductive WorkerStep where
  | completed : Bool → WorkerStep
  | hookAbort : WorkerStep
  | unwoundPanic : WorkerStep
deriving DecidableEq

/-- The worker closure of `run_with_log_capture` (server.rs lines 47-55):
`Ok` maps to `true`, `Err` is logged and maps to `false`, and a panic first
runs the panic hook on the worker thread. -/
def worker_run (r : EngineResult) : WorkerStep :=
  match r with
  | .success => .completed true
  | .failure => .completed false
  | .panics =>
      if panic_hook_aborts worker_catching_unwind then .hookAbort else .unwoundPanic

/-- Outcome of a dispatched run request at the server boundary: an HTTP
response carrying the engine verdict (`true` ⇒ 200, `false` ⇒ 400,
server.rs lines 202-205), or the death of the server process. -/
inductive ServerOutcome where
  | response : Bool → ServerOutcome
  | processAbort : ServerOutcome
deriving DecidableEq

/-- Embedding of `run_with_log_capture` plus the `handle_run` tail (server.rs lines 46-64,
202-205).  On `WorkerStep.unwoundPanic` the `JoinHandle` yields
`Err(JoinError)` and the `.unwrap()` on line 57 re-panics on the scheduler
thread, where the hook runs again; whether or not it aborts there, no HTTP
response is produced (an uncaught unwind leaves the process). -/
def run_with_log_capture (r : EngineResult) : ServerOutcome :=
  match worker_run r with
  | .completed ok => .response ok
  | .hookAbort => .processAbort
  | .unwoundPanic =>
      if panic_hook_aborts scheduler_catching_unwind then .processAbort else .processAbort

/-! ## C3 / C10 — `Runner::new`: defmt-table step and run-mode decision

Source: `src/teleprobe/src/run.rs` lines 68-152. -/

/-- A half-open address range, the embedding of Rust's `Range<u64>`
(`lo..hi`); `Range::contains(&x)` is `lo ≤ x ∧ x < hi`. -/
structure MemRange where
  lo : Nat
  hi : Nat
deriving DecidableEq

/-- Embedding of `Range::contains` for `MemRange`. -/
def MemRange.contains (r : MemRange) (x : Nat) : Bool :=
  decide (r.lo ≤ x) && decide (x < r.hi)

/-- The type `probe_rs::config::MemoryRegion` restricted to its range and the three
variants `Runner::new` matches on (run.rs lines 132-148). -/
inductive MemoryRegion where
  | ram : MemRange → MemoryRegion
  | generic : MemRange → MemoryRegion
  | nvm : MemRange → MemoryRegion
deriving DecidableEq

/-- The address range of a region. -/
def MemoryRegion.range : MemoryRegion → MemRange
  | .ram r => r
  | .generic r => r
  | .nvm r => r

/-- One step of the `for r in &sess.target().memory_map` loop of
`Runner::new` (run.rs lines 131-149): a `Ram` or `Generic` region containing
the vector-table location overwrites the accumulator with `Some(true)`, an
`Nvm` region containing it overwrites with `Some(false)`, any other region
leaves it unchanged.  There is no `break`: a later containing region wins. -/
def run_from_ram_step (location : Nat) (acc : Option Bool) (r : MemoryRegion) : Option Bool :=
  match r with
  | .ram rr => if rr.contains location then some true else acc
  | .generic rr => if rr.contains location then some true else acc
  | .nvm rr => if rr.contains location then some false else acc

/-- The whole memory-map scan of `Runner::new` (run.rs lines 130-149),
starting from `let mut run_from_ram = None;`. -/
def run_from_ram_scan (memory_map : List MemoryRegion) (location : Nat) : Option Bool :=
  memory_map.foldl (run_from_ram_step location) none

/-- The vector table record built by `Runner::new` from the
`.vector_table` section (run.rs lines 106-114, 585-595). -/
structure VectorTable where
  location : Nat
  initial_sp : Nat
  reset : Nat
  hard_fault : Nat
deriving DecidableEq

/-- The inputs `Runner::new` consumes up to and including the run-mode
decision (run.rs lines 68-152): whether `ElfFile::parse` and
`DebugInfo::from_raw` succeed, the outcome of
`defmt_decoder::Table::parse` (`Err` / `Ok(None)` / `Ok(Some(table))`,
the table itself left abstract), whether `table.get_locations` succeeds,
the vector table extracted from the section scan (`None` when the
`.vector_table` section is missing), and the chip's memory map. -/
structure RunnerNewInputs where
  elf_parse_ok : Bool
  debug_info_ok : Bool
  defmt_table : Except Unit (Option Unit)
  locations_ok : Bool
  vector_table : Option VectorTable
  memory_map : List MemoryRegion

/-- Outcome of the modelled prefix of `Runner::new`: an ordinary `Err`
return propagated with `?` or `bail!`/`ok_or_else` (run.rs lines 69, 71,
73, 74, 119), a Rust panic (`expect` on line 73, `unwrap` on line 151),
or reaching line 152 with the run mode decided (`true` = RAM mode,
`false` = flash mode); the rest of `Runner::new` (flashing, RTT, …) is
beyond this model and is abstracted into `proceeds`. -/
inductive RunnerNewOutcome where
  | err : RunnerNewOutcome
  | panics : RunnerNewOutcome
  | proceeds : Bool → RunnerNewOutcome
deriving DecidableEq

/-- Embedding of `Runner::new` (run.rs lines 68-152), step by step in source order up to
the run-mode decision:
`ElfFile::parse(elf_bytes)?` → `DebugInfo::from_raw(elf_bytes)?` →
`Table::parse(elf_bytes)?.expect("no defmt table")` →
`table.get_locations(elf_bytes)?` → section scan →
`vector_table.ok_or_else(..)?` → memory-map scan → `run_from_ram.unwrap()`. -/
def Runner.new (inp : RunnerNewInputs) : RunnerNewOutcome :=
  if !inp.elf_parse_ok then .err
  else if !inp.debug_info_ok then .err
  else
    match inp.defmt_table with
    | .error _ => .err
    | .ok none => .panics
    | .ok (some _) =>
        if !inp.locations_ok then .err
        else
          match inp.vector_table with
          | none => .err
          | some vt =>
              match run_from_ram_scan inp.memory_map vt.location with
              | none => .panics
              | some b => .proceeds b

/-! ## C4 — post-run verdict from XPSR

Source: `src/teleprobe/src/run.rs` `Runner::dump_state` (lines 448-506) and
the tail of `Runner::run` (lines 358-365). -/

/-- The observable actions `dump_state` and `traceback` perform, in
emission order: the full traceback (`Runner::traceback`, registers + stack
+ backtrace), the `info!("Hard Fault!")` line, the reads of the fault
status registers, the decoded-field log lines, and the
`info!("Exception {}")` line for other exception numbers. -/
inductive DumpEvent where
  | traceback : DumpEvent
  | hardFaultMsg : DumpEvent
  | readHfsr : DumpEvent
  | escalatedMsg : DumpEvent
  | readCfsr : DumpEvent
  | logUfsr : Nat → DumpEvent
  | logBfsr : Nat → DumpEvent
  | readBfar : DumpEvent
  | logMmfsr : Nat → DumpEvent
  | logExceptionNumber : Nat → DumpEvent
deriving DecidableEq

/-- The core registers `dump_state` reads: XPSR via `read_core_reg`, and
the memory-mapped HFSR (`0xE000_ED2C`) and CFSR (`0xE000_ED28`) via
`read_word_32`.  All are 32-bit values. -/
structure CoreState where
  xpsr : Nat
  hfsr : Nat
  cfsr : Nat

/-- Embedding of `Runner::dump_state` (run.rs lines 448-506).  Returns the `Ok(bool)`
value (`true` iff HardFault) paired with the emitted events.
`xpsr & 0xff` is embedded as `% 256`; the bit tests `hfsr & (1 << 30)`,
`bfsr & (1 << 7)` as `/ 2^k % 2`. -/
def Runner.dump_state (c : CoreState) (force : Bool) : Bool × List DumpEvent :=
  let exception_number := c.xpsr % 256
  if exception_number = 0 then
    (false, if force then [.traceback] else [])
  else if exception_number = 3 then
    let hfsr_events : List DumpEvent :=
      if c.hfsr / 2 ^ 30 % 2 ≠ 0 then
        let ufsr := c.cfsr / 2 ^ 16 % 2 ^ 16
        let bfsr := c.cfsr / 2 ^ 8 % 2 ^ 8
        let mmfsr := c.cfsr % 2 ^ 8
        [.escalatedMsg, .readCfsr]
          ++ (if ufsr ≠ 0 then [.logUfsr ufsr] else [])
          ++ (if bfsr ≠ 0 then
                [.logBfsr bfsr] ++ (if bfsr / 2 ^ 7 % 2 ≠ 0 then [.readBfar] else [])
              else [])
          ++ (if mmfsr ≠ 0 then [.logMmfsr bfsr] else [])
      else []
    (true, [.traceback, .hardFaultMsg, .readHfsr] ++ hfsr_events)
  else
    (false, [.traceback, .logExceptionNumber exception_number])

/-- The tail of `Runner::run` after the polling loop exits normally
(run.rs lines 358-365): `dump_state(&mut core, false)?`, then
`bail!("Firmware crashed")` iff it reported a HardFault. -/
def Runner.run_verdict (c : CoreState) : Except (List Char) Unit :=
  if (Runner.dump_state c false).1 then .error "Firmware crashed".toList else .ok ()

/-! ## C5 — polling-loop termination condition

Source: `src/teleprobe/src/run.rs` `Runner::run`, lines 334-356.  One loop
iteration is: deadline check (lines 338-345, `bail!` on expiry), `poll`
(line 347), then sample `core.core_halted()` (line 350) and break iff both
this and the previous sample were halted (lines 352-355). -/

/-- What one iteration of the loop observes: whether `Instant::now() >
deadline` at the top, and the `core_halted()` sample after the poll. -/
structure PollObs where
  deadlineExceeded : Bool
  halted : Bool
deriving DecidableEq

/-- How the polling loop left the trace: `bail!("Deadline exceeded")` at
iteration `i`, normal break at iteration `i` (the `break` on line 353), or
still running when the supplied observation trace ran out. -/
inductive LoopExit where
  | timeout : Nat → LoopExit
  | normal : Nat → LoopExit
  | running : LoopExit
deriving DecidableEq

/-- Shift an exit's iteration index up by one (used when peeling the first
iteration off the trace). -/
def LoopExit.bump : LoopExit → LoopExit
  | .timeout i => .timeout (i + 1)
  | .normal i => .normal (i + 1)
  | .running => .running

/-- The polling loop of `Runner::run` (run.rs lines 334-356) on a trace of
per-iteration observations.  `was_halted` is the mutable local of line 335;
iteration `i` consumes `obs[i]`. -/
def poll_loop (obs : List PollObs) (was_halted : Bool) : LoopExit :=
  match obs with
  | [] => .running
  | o :: rest =>
      if o.deadlineExceeded then .timeout 0
      else if o.halted && was_halted then .normal 0
      else (poll_loop rest o.halted).bump

/-- The loop as entered by `Runner::run`: `let mut was_halted = false;`
(run.rs line 335). -/
def Runner.run_loop (obs : List PollObs) : LoopExit :=
  poll_loop obs false

/-! ## C6 — RTT attach retry loop

Source: `src/teleprobe/src/run.rs` `setup_logging_channel`, lines 509-563. -/

/-- The scan region passed to `Rtt::attach_region`.  The loop only ever
builds `ScanRegion::Exact(rtt_addr)` (run.rs line 517); the other probe-rs
variants are collapsed into `other` since no teleprobe code constructs
them. -/
inductive ScanRegion where
  | exact : Nat → ScanRegion
  | other : ScanRegion
deriving DecidableEq

/-- Result of one `Rtt::attach_region` call as `setup_logging_channel`
distinguishes them (run.rs lines 518-536): success,
`Error::ControlBlockNotFound`, or any other error. -/
inductive AttachResult where
  | ok : AttachResult
  | controlBlockNotFound : AttachResult
  | otherErr : AttachResult
deriving DecidableEq

/-- Outcome of `setup_logging_channel`'s retry loop: attached on attempt
`i` (0-based), `Err(ControlBlockNotFound)` after exhausting the retries
(run.rs line 530), or `Err(e)` for a non-`ControlBlockNotFound` error on
attempt `i` (run.rs line 534). -/
inductive RttOutcome where
  | attached : Nat → RttOutcome
  | errControlBlockNotFound : RttOutcome
  | errOther : Nat → RttOutcome
deriving DecidableEq

/-- The constant `NUM_RETRIES` (run.rs line 510). -/
def NUM_RETRIES : Nat := 10

/-- The body of `for try_index in 0..=NUM_RETRIES` (run.rs lines 516-537),
from attempt `try_index` on.  `attach region i` is the result of the `i`-th
`Rtt::attach_region` call at scan region `region`; the loop always passes
`ScanRegion::Exact(rtt_addr)`.  The recursion is structural on `fuel`, the
number of iterations the source's `0..=NUM_RETRIES` iterator still has
(`NUM_RETRIES + 1 - try_index`); callers maintain that invariant, which
makes the `fuel = 0` branch unreachable (the `try_index < NUM_RETRIES`
retry guard fires only while at least two iterations remain). -/
def rtt_attach_loop (attach : ScanRegion → Nat → AttachResult) (rtt_addr : Nat) :
    Nat → Nat → RttOutcome
  | 0, _ => .errControlBlockNotFound
  | fuel + 1, try_index =>
      match attach (.exact rtt_addr) try_index with
      | .ok => .attached try_index
      | .controlBlockNotFound =>
          if try_index < NUM_RETRIES then rtt_attach_loop attach rtt_addr fuel (try_index + 1)
          else .errControlBlockNotFound
      | .otherErr => .errOther try_index

/-- The loop of `setup_logging_channel` entered at `try_index = 0`, with
its full `NUM_RETRIES + 1` iterations available. -/
def setup_logging_channel (attach : ScanRegion → Nat → AttachResult) (rtt_addr : Nat) :
    RttOutcome :=
  rtt_attach_loop attach rtt_addr (NUM_RETRIES + 1) 0

/-! ## C7 — power-reset step of `connect`

Source: `src/teleprobe/src/probe/mod.rs` `connect`, lines 68-95 (the
`power_reset` block is lines 71-83). -/

/-- The fields of `probe_rs::probe::DebugProbeSelector` that `connect`
consults: only `serial_number` (probe/mod.rs lines 75, 80).  The VID/PID
part is irrelevant to this step and left out. -/
structure DebugProbeSelector where
  serial_number : Option (List Char)
deriving DecidableEq

/-- The fields of `probe::Opts` (probe/mod.rs lines 12-43) that the
power-reset block reads.  `cycle_delay_seconds` is an `f64` with clap
default `"1"`; the two concrete values this development compares (the
hard-coded `1.0` and a configured `0.5`) are exactly representable, so
`ℚ` embeds them faithfully. -/
structure ProbeOpts where
  probe : Option DebugProbeSelector
  power_reset : Bool
  cycle_delay_seconds : ℚ
deriving DecidableEq

/-- What the power-reset block of `connect` does before entering the
settle loop: `bail!` (lines 73, 76), call `power_reset(serial, delay)`
(line 80; its own `Err` is only logged as a warning, line 81, so the call
itself is the observable action), or skip the block when
`opts.power_reset` is false. -/
inductive PowerStep where
  | errNoSerial : PowerStep
  | powerCycle : List Char → ℚ → PowerStep
  | skipped : PowerStep
deriving DecidableEq

/-- The power-reset block of `connect` (probe/mod.rs lines 71-83):
```
if opts.power_reset {
    let Some(selector) = &opts.probe else { bail!("power reset requires a serial number"); };
    if selector.serial_number.is_none() { bail!("power reset requires a serial number"); };
    if let Err(err) = power_reset(&selector.serial_number.as_ref().unwrap(), 1.0) { ... }
}
```
Note the literal `1.0` on line 80. -/
def connect_power_step (opts : ProbeOpts) : PowerStep :=
  if opts.power_reset then
    match opts.probe with
    | none => .errNoSerial
    | some selector =>
        match selector.serial_number with
        | none => .errNoSerial
        | some serial => .powerCycle serial 1
  else .skipped

/-! ## C9 — ELF metadata extraction

Source: `src/teleprobe/src/client.rs` `ElfMetadata::from_elf`,
lines 88-115. -/

/-- Continuation-byte test of UTF-8: `0x80 ≤ b ≤ 0xBF`. -/
def utf8Cont (b : Nat) : Bool :=
  decide (0x80 ≤ b) && decide (b ≤ 0xBF)

/-- Validity of a byte sequence as UTF-8, exactly the check performed by
Rust's `String::from_utf8` (client.rs line 97): ASCII, 2-byte `C2..DF`,
3-byte `E0 A0..BF` / `E1..EC` / `ED 80..9F` (excluding surrogates) /
`EE..EF`, 4-byte `F0 90..BF` / `F1..F3` / `F4 80..8F` (up to U+10FFFF),
each followed by continuation bytes `80..BF`. -/
def utf8Valid : List Nat → Bool
  | [] => true
  | b :: rest =>
      if b ≤ 0x7F then utf8Valid rest
      else if 0xC2 ≤ b && b ≤ 0xDF then
        match rest with
        | b1 :: r => utf8Cont b1 && utf8Valid r
        | [] => false
      else if b = 0xE0 then
        match rest with
        | b1 :: b2 :: r => decide (0xA0 ≤ b1) && decide (b1 ≤ 0xBF) && utf8Cont b2 && utf8Valid r
        | _ => false
      else if 0xE1 ≤ b && b ≤ 0xEC then
        match rest with
        | b1 :: b2 :: r => utf8Cont b1 && utf8Cont b2 && utf8Valid r
        | _ => false
      else if b = 0xED then
        match rest with
        | b1 :: b2 :: r => decide (0x80 ≤ b1) && decide (b1 ≤ 0x9F) && utf8Cont b2 && utf8Valid r
        | _ => false
      else if 0xEE ≤ b && b ≤ 0xEF then
        match rest with
        | b1 :: b2 :: r => utf8Cont b1 && utf8Cont b2 && utf8Valid r
        | _ => false
      else if b = 0xF0 then
        match rest with
        | b1 :: b2 :: b3 :: r =>
            decide (0x90 ≤ b1) && decide (b1 ≤ 0xBF) && utf8Cont b2 && utf8Cont b3 && utf8Valid r
        | _ => false
      else if 0xF1 ≤ b && b ≤ 0xF3 then
        match rest with
        | b1 :: b2 :: b3 :: r => utf8Cont b1 && utf8Cont b2 && utf8Cont b3 && utf8Valid r
        | _ => false
      else if b = 0xF4 then
        match rest with
        | b1 :: b2 :: b3 :: r =>
            decide (0x80 ≤ b1) && decide (b1 ≤ 0x8F) && utf8Cont b2 && utf8Cont b3 && utf8Valid r
        | _ => false
      else false

/-- Embedding of `u32::from_le_bytes` on a 4-byte section (client.rs line 107), on the
first four elements of the byte list. -/
def u32_from_le_bytes (data : List Nat) : Nat :=
  data.getD 0 0 + 256 * data.getD 1 0 + 65536 * data.getD 2 0 + 16777216 * data.getD 3 0

/-- The warnings `ElfMetadata::from_elf` can emit (client.rs lines 99,
109). -/
inductive MetaWarning where
  | targetNotUtf8 : MetaWarning
  | timeoutNotU32 : MetaWarning
deriving DecidableEq

/-- The type `struct ElfMetadata` (client.rs lines 82-86).  The `target` string is
kept as its UTF-8 bytes. -/
structure ElfMetadata where
  target : Option (List Nat)
  timeout : Option Nat
deriving DecidableEq

/-- Embedding of `ElfMetadata::from_elf` (client.rs lines 88-115).  `elf_parse_ok`
abstracts `object::File::parse(elf)?` (line 92); `target_section` and
`timeout_section` are the raw contents of `.teleprobe.target` and
`.teleprobe.timeout` when those sections exist (`section_by_name` +
`section.data()?`, lines 94-95, 104-105).  Returns the metadata together
with the warnings emitted. -/
def ElfMetadata.from_elf (elf_parse_ok : Bool)
    (target_section timeout_section : Option (List Nat)) :
    Except Unit (ElfMetadata × List MetaWarning) :=
  if !elf_parse_ok then .error ()
  else
    let tgt : Option (List Nat) × List MetaWarning :=
      match target_section with
      | some data =>
          if data.isEmpty then (none, [])
          else if utf8Valid data then (some data, [])
          else (none, [.targetNotUtf8])
      | none => (none, [])
    let tmo : Option Nat × List MetaWarning :=
      match timeout_section with
      | some data =>
          if data.length = 4 then (some (u32_from_le_bytes data), [])
          else (none, [.timeoutNotU32])
      | none => (none, [])
    .ok (⟨tgt.1, tmo.1⟩, tgt.2 ++ tmo.2)

/-! ## C8 — probe-selector parse/format round trip

Source: `src/src/probe/specifier.rs`: `ProbeSpecifier::from_str`
(lines 37-58) and the `Serialize` impl (lines 21-35).  Rust strings are
embedded as `List Char`. -/

/-- The type `struct ProbeSpecifier` (specifier.rs lines 5-9): optional 16-bit
`(vid, pid)` pair and optional serial string. -/
structure ProbeSpecifier where
  vid_pid : Option (Nat × Nat)
  serial : Option (List Char)
deriving DecidableEq

/-- Rust's `str::split(':')` (specifier.rs line 41): the list of
(possibly empty) fragments between `':'` separators.  `split` on the empty
string yields one empty fragment. -/
def splitColon : List Char → List (List Char)
  | [] => [[]]
  | c :: rest =>
      if c = ':' then [] :: splitColon rest
      else
        match splitColon rest with
        | [] => [[c]]
        | s :: ss => (c :: s) :: ss

/-- Value of one hexadecimal digit as accepted by
`u16::from_str_radix(_, 16)`: `0-9`, `a-f`, `A-F`. -/
def hexDigitVal (c : Char) : Option Nat :=
  if 48 ≤ c.toNat && c.toNat ≤ 57 then some (c.toNat - 48)
  else if 97 ≤ c.toNat && c.toNat ≤ 102 then some (c.toNat - 87)
  else if 65 ≤ c.toNat && c.toNat ≤ 70 then some (c.toNat - 55)
  else none

/-- The digit-accumulation loop of `u16::from_str_radix(_, 16)`:
`acc = acc * 16 + digit` with a checked-overflow test against `u16` at
every step; a non-digit character fails. -/
def hexAccum (acc : Nat) : List Char → Option Nat
  | [] => some acc
  | c :: rest =>
      match hexDigitVal c with
      | none => none
      | some d => if acc * 16 + d < 65536 then hexAccum (acc * 16 + d) rest else none

/-- Embedding of `u16::from_str_radix(s, 16)` (specifier.rs lines 48, 52): an optional
leading `'+'`, then at least one hex digit, value within `u16`. -/
def u16_from_str_radix_16 (s : List Char) : Option Nat :=
  match s with
  | [] => none
  | '+' :: rest => if rest.isEmpty then none else hexAccum 0 rest
  | _ => hexAccum 0 s

/-- Embedding of `ProbeSpecifier::from_str` (specifier.rs lines 40-57): split on `':'`
and dispatch on the number of fragments. -/
def ProbeSpecifier.from_str (s : List Char) : Option ProbeSpecifier :=
  match splitColon s with
  | [serial] => some ⟨none, some serial⟩
  | [vid, pid] =>
      match u16_from_str_radix_16 vid, u16_from_str_radix_16 pid with
      | some v, some p => some ⟨some (v, p), none⟩
      | _, _ => none
  | [vid, pid, serial] =>
      match u16_from_str_radix_16 vid, u16_from_str_radix_16 pid with
      | some v, some p => some ⟨some (v, p), some serial⟩
      | _, _ => none
  | _ => none

/-- The character `{:x}` uses for one hex digit: `0-9` then lowercase
`a-f`. -/
def hexChar (d : Nat) : Char :=
  if d < 10 then Char.ofNat (48 + d) else Char.ofNat (87 + d)

/-- Digit emission of Rust's `{:x}` formatting, most significant digit
first, accumulator style. -/
def toHexAux (n : Nat) (acc : List Char) : List Char :=
  if h : n < 16 then hexChar n :: acc
  else toHexAux (n / 16) (hexChar (n % 16) :: acc)
termination_by n
decreasing_by exact Nat.div_lt_self (by omega) (by omega)

/-- Rust's `format!("{:x}", n)`: lowercase hexadecimal, no leading zeros,
`0` printed as `"0"`. -/
def toHex (n : Nat) : List Char :=
  toHexAux n []

/-- The `Serialize` impl of `ProbeSpecifier` (specifier.rs lines 21-35):
the serialized string, or `none` for the `(None, None)` case, which the
source turns into `panic!("Invalid probe filter")`. -/
def ProbeSpecifier.serializeStr : ProbeSpecifier → Option (List Char)
  | ⟨none, none⟩ => none
  | ⟨none, some serial⟩ => some serial
  | ⟨some (vid, pid), none⟩ => some (toHex vid ++ ':' :: toHex pid)
  | ⟨some (vid, pid), some serial⟩ => some (toHex vid ++ ':' :: toHex pid ++ ':' :: serial)

/-! ## Theorems -/

/-- C1: For every run request handled by the dispatcher, the effective
timeout in seconds is `min(client_timeout.unwrap_or(default_timeout),
max_timeout)`: with defaults in place (`default_timeout = 10 ≤ max_timeout
= 60`) a request with no timeout parameter gets `default_timeout`, a client
timeout not exceeding `max_timeout` is taken as is, and a client timeout
greater than `max_timeout` is clamped to `max_timeout`. -/
theorem c1_timeout_clamping (d m s : Nat) :
    (d ≤ m → effective_timeout none d m = d)
    ∧ (s ≤ m → effective_timeout (some s) d m = s)
    ∧ (m < s → effective_timeout (some s) d m = m)
    ∧ default_default_timeout = 10 ∧ default_max_timeout = 60 := by
  refine ⟨fun h => ?_, fun h => ?_, fun h => ?_, rfl, rfl⟩ <;>
    simp only [effective_timeout, Option.getD, Nat.min_def] <;> split <;> omega

/-- Witness for `c1_timeout_clamping`: with the default configuration
(`default_timeout = 10`, `max_timeout = 60`), a request with no timeout
parameter gets 10 seconds, `?timeout=42` gets 42, and `?timeout=120` is
clamped to 60. -/
theorem c1_timeout_clamping_witness :
    effective_timeout none 10 60 = 10
    ∧ effective_timeout (some 42) 10 60 = 42
    ∧ effective_timeout (some 120) 10 60 = 60 :=
  ⟨(c1_timeout_clamping 10 60 42).1 (by decide),
   (c1_timeout_clamping 10 60 42).2.1 (by decide),
   (c1_timeout_clamping 10 60 120).2.2.1 (by decide)⟩

/-- C2 (code bug, evaluated at the failing input): when the engine panics
inside the blocking worker, the dispatcher does NOT return a failed
response — the panic hook observes `CATCHING_UNWIND = false` on the worker
thread (nothing ever sets it: `FutureExt::ak_catch_unwind` is dead code)
and calls `abort()`, killing the server process.  The claim's promised
outcome, an `ok=false` HTTP response, is never produced. -/
theorem c2_engine_panic_aborts_process :
    run_with_log_capture EngineResult.panics = ServerOutcome.processAbort
    ∧ run_with_log_capture EngineResult.panics ≠ ServerOutcome.response false
    ∧ run_with_log_capture EngineResult.panics ≠ ServerOutcome.response true
    ∧ panic_hook_aborts worker_catching_unwind = true := by
  decide

/-- C10: for every input whose ELF parses (`ElfFile::parse` and
`DebugInfo::from_raw` succeed) but whose defmt-table lookup yields
`Ok(None)` (a valid ELF with no defmt table), `Runner::new` panics via
`.expect("no defmt table")` (run.rs line 73) instead of returning an `Err`,
so such an image cannot produce an ordinary failed-run result from the
engine. -/
theorem c10_defmt_table_is_precondition (inp : RunnerNewInputs)
    (h1 : inp.elf_parse_ok = true) (h2 : inp.debug_info_ok = true)
    (h3 : inp.defmt_table = Except.ok none) :
    Runner.new inp = RunnerNewOutcome.panics
    ∧ Runner.new inp ≠ RunnerNewOutcome.err := by
  simp [Runner.new, h1, h2, h3]

/-- Witness for `c10_defmt_table_is_precondition`: a concrete input — ELF
and DWARF parse fine, defmt table absent — on which `Runner::new` panics. -/
theorem c10_defmt_table_is_precondition_witness :
    Runner.new ⟨true, true, Except.ok none, true, none, []⟩ = RunnerNewOutcome.panics
    ∧ Runner.new ⟨true, true, Except.ok none, true, none, []⟩ ≠ RunnerNewOutcome.err :=
  c10_defmt_table_is_precondition ⟨true, true, Except.ok none, true, none, []⟩ rfl rfl rfl

/-- Concrete `Runner::new` input for the C3 counterexample: an STM32F4-like
memory map (RAM at `0x2000_0000..0x2002_0000`, flash at
`0x0800_0000..0x0810_0000`) and a vector table at `0x9000_0000`, outside
every region; everything before the memory-map scan succeeds. -/
def c3Input : RunnerNewInputs :=
  { elf_parse_ok := true
    debug_info_ok := true
    defmt_table := Except.ok (some ())
    locations_ok := true
    vector_table := some ⟨0x90000000, 0x20020000, 0x08000199, 0x080001ff⟩
    memory_map := [.ram ⟨0x20000000, 0x20020000⟩, .nvm ⟨0x08000000, 0x08100000⟩] }

/-- C3 counterexample: with the vector table at `0x9000_0000`, outside
every region of the memory map, `Runner::new` does NOT return an error —
it panics (the `run_from_ram.unwrap()` on run.rs line 151 is an `unwrap`
on `None`), refuting the claim that such a run fails by returning an
error. -/
theorem c3_counterexample :
    Runner.new c3Input = RunnerNewOutcome.panics
    ∧ Runner.new c3Input ≠ RunnerNewOutcome.err := by
  decide

/-- Kind test used by the run-mode decision: `Ram` and `Generic` regions
put the run in RAM mode, `Nvm` regions in flash mode. -/
def MemoryRegion.isRamOrGeneric : MemoryRegion → Bool
  | .ram _ => true
  | .generic _ => true
  | .nvm _ => false

/-- The memory-map scan leaves the accumulator untouched when no region
contains the location. -/
theorem run_from_ram_scan_not_contained (map : List MemoryRegion) (loc : Nat)
    (h : ∀ r ∈ map, r.range.contains loc = false) (acc : Option Bool) :
    map.foldl (run_from_ram_step loc) acc = acc := by
  induction map generalizing acc with
  | nil => rfl
  | cons r rest ih =>
      have hr := h r (List.mem_cons_self r rest)
      have hrest : ∀ x ∈ rest, x.range.contains loc = false :=
        fun x hx => h x (List.mem_cons_of_mem r hx)
      cases r <;>
        simp_all [run_from_ram_step, MemoryRegion.range, List.foldl_cons]

/-- The memory-map scan yields `some b` where `b` is the kind of a
containing region, provided every region containing the location has the
same kind. -/
theorem run_from_ram_scan_contained (map : List MemoryRegion) (loc : Nat) (b : Bool)
    (hex : ∃ r ∈ map, r.range.contains loc = true)
    (hall : ∀ r ∈ map, r.range.contains loc = true → r.isRamOrGeneric = b)
    (acc : Option Bool) :
    map.foldl (run_from_ram_step loc) acc = some b := by
  induction map generalizing acc with
  | nil => exact absurd hex (by simp)
  | cons r rest ih =>
      by_cases hrest : ∃ x ∈ rest, x.range.contains loc = true
      · exact ih hrest (fun x hx hc => hall x (List.mem_cons_of_mem r hx) hc) _
      · have hr : r.range.contains loc = true := by
          rcases hex with ⟨x, hx, hc⟩
          rcases List.mem_cons.mp hx with h | h
          · exact h ▸ hc
          · exact absurd ⟨x, h, hc⟩ hrest
        have hkind := hall r (List.mem_cons_self r rest) hr
        have hnone : ∀ x ∈ rest, x.range.contains loc = false := by
          intro x hx
          by_contra hcx
          exact hrest ⟨x, hx, by simpa using hcx⟩
        rw [List.foldl_cons, run_from_ram_scan_not_contained rest loc hnone]
        cases r <;>
          simp_all [run_from_ram_step, MemoryRegion.range, MemoryRegion.isRamOrGeneric]

/-- C3 amended: the run mode is decided from the chip memory map by the
vector table's location — for a run whose earlier `Runner::new` steps
succeed, a location contained only in `Ram`/`Generic` regions (at least
one) yields RAM mode, a location contained only in `Nvm` regions yields
flash mode, and a location outside every known region makes `Runner::new`
PANIC (`run_from_ram.unwrap()` on `None`, run.rs line 151) rather than
return an ordinary error. -/
theorem c3_run_mode_classification (inp : RunnerNewInputs) (vt : VectorTable)
    (h1 : inp.elf_parse_ok = true) (h2 : inp.debug_info_ok = true)
    (h3 : inp.defmt_table = Except.ok (some ())) (h4 : inp.locations_ok = true)
    (h5 : inp.vector_table = some vt) :
    ((∀ r ∈ inp.memory_map, r.range.contains vt.location = false) →
        Runner.new inp = RunnerNewOutcome.panics)
    ∧ ((∃ r ∈ inp.memory_map, r.range.contains vt.location = true) →
        (∀ r ∈ inp.memory_map, r.range.contains vt.location = true →
          r.isRamOrGeneric = true) →
        Runner.new inp = RunnerNewOutcome.proceeds true)
    ∧ ((∃ r ∈ inp.memory_map, r.range.contains vt.location = true) →
        (∀ r ∈ inp.memory_map, r.range.contains vt.location = true →
          r.isRamOrGeneric = false) →
        Runner.new inp = RunnerNewOutcome.proceeds false) := by
  refine ⟨fun hout => ?_, fun hex hall => ?_, fun hex hall => ?_⟩
  · simp [Runner.new, h1, h2, h3, h4, h5, run_from_ram_scan,
      run_from_ram_scan_not_contained inp.memory_map vt.location hout none]
  · simp [Runner.new, h1, h2, h3, h4, h5, run_from_ram_scan,
      run_from_ram_scan_contained inp.memory_map vt.location true hex hall none]
  · simp [Runner.new, h1, h2, h3, h4, h5, run_from_ram_scan,
      run_from_ram_scan_contained inp.memory_map vt.location false hex hall none]

/-- Witness for `c3_run_mode_classification`: on the STM32F4-like map, a
vector table at `0x0800_0000` (inside the `Nvm` region) proceeds in flash
mode, one at `0x2000_0000` (inside the `Ram` region) in RAM mode, and one
at `0x9000_0000` (outside all regions) panics. -/
theorem c3_run_mode_classification_witness :
    Runner.new { c3Input with vector_table := some ⟨0x08000000, 0, 0, 0⟩ }
      = RunnerNewOutcome.proceeds false
    ∧ Runner.new { c3Input with vector_table := some ⟨0x20000000, 0, 0, 0⟩ }
      = RunnerNewOutcome.proceeds true
    ∧ Runner.new c3Input = RunnerNewOutcome.panics :=
  ⟨(c3_run_mode_classification _ ⟨0x08000000, 0, 0, 0⟩ rfl rfl rfl rfl rfl).2.2
      (by decide) (by decide),
   (c3_run_mode_classification _ ⟨0x20000000, 0, 0, 0⟩ rfl rfl rfl rfl rfl).2.1
      (by decide) (by decide),
   (c3_run_mode_classification c3Input ⟨0x90000000, 0x20020000, 0x08000199, 0x080001ff⟩
      rfl rfl rfl rfl rfl).1 (by decide)⟩

/-- C4: after the polling loop ends with the core halted, the verdict is
decided by `exception_number = XPSR & 0xff`: the run returns the
"Firmware crashed" failure iff the exception number is 3, in which case the
traceback, the `Hard Fault!` message and the HFSR read are emitted (with
the CFSR read when HFSR bit 30 is set, and the BFAR read when additionally
BFSR is nonzero with bit 7 set); exception number 0 emits the traceback
exactly when a force dump was requested, and any other exception number is
reported with a traceback and its number but is not a crash. -/
theorem c4_verdict_from_xpsr (c : CoreState) (force : Bool) :
    (Runner.run_verdict c = Except.error "Firmware crashed".toList ↔ c.xpsr % 256 = 3)
    ∧ (c.xpsr % 256 = 3 →
        (Runner.dump_state c force).1 = true
        ∧ DumpEvent.traceback ∈ (Runner.dump_state c force).2
        ∧ DumpEvent.hardFaultMsg ∈ (Runner.dump_state c force).2
        ∧ DumpEvent.readHfsr ∈ (Runner.dump_state c force).2
        ∧ (c.hfsr / 2 ^ 30 % 2 ≠ 0 → DumpEvent.readCfsr ∈ (Runner.dump_state c force).2)
        ∧ (c.hfsr / 2 ^ 30 % 2 ≠ 0 → c.cfsr / 2 ^ 8 % 2 ^ 8 ≠ 0 →
            c.cfsr / 2 ^ 8 % 2 ^ 8 / 2 ^ 7 % 2 ≠ 0 →
            DumpEvent.readBfar ∈ (Runner.dump_state c force).2))
    ∧ (c.xpsr % 256 = 0 →
        (Runner.dump_state c force).1 = false
        ∧ (DumpEvent.traceback ∈ (Runner.dump_state c force).2 ↔ force = true))
    ∧ (c.xpsr % 256 ≠ 0 → c.xpsr % 256 ≠ 3 →
        (Runner.dump_state c force).1 = false
        ∧ DumpEvent.traceback ∈ (Runner.dump_state c force).2
        ∧ DumpEvent.logExceptionNumber (c.xpsr % 256) ∈ (Runner.dump_state c force).2) := by
  refine ⟨?_, fun h3 => ?_, fun h0 => ?_, fun h0 h3 => ?_⟩
  · constructor
    · intro h
      by_contra hne
      rcases Nat.eq_zero_or_pos (c.xpsr % 256) with h0 | _
      · simp [Runner.run_verdict, Runner.dump_state, h0] at h
      · by_cases h0 : c.xpsr % 256 = 0
        · simp [Runner.run_verdict, Runner.dump_state, h0] at h
        · simp [Runner.run_verdict, Runner.dump_state, h0, hne] at h
    · intro h3
      simp [Runner.run_verdict, Runner.dump_state, h3]
  · refine ⟨?_, ?_, ?_, ?_, fun hb => ?_, fun hb hbfsr hbit => ?_⟩ <;>
      simp [Runner.dump_state, h3] <;> omega
  · cases force <;> simp [Runner.dump_state, h0]
  · simp [Runner.dump_state, h0, h3]

/-- Witness for `c4_verdict_from_xpsr`: concrete core states — XPSR ending
in `0x03` with HFSR bit 30 and a bus-fault CFSR is a crash with traceback,
HFSR/CFSR/BFAR reads; XPSR ending in `0x00` without force emits nothing;
XPSR ending in `0x0b` (exception 11) emits a traceback but is no crash. -/
theorem c4_verdict_from_xpsr_witness :
    Runner.run_verdict ⟨0x01000003, 2 ^ 30, 0x8200⟩ = Except.error "Firmware crashed".toList
    ∧ DumpEvent.readBfar ∈ (Runner.dump_state ⟨0x01000003, 2 ^ 30, 0x8200⟩ false).2
    ∧ (Runner.dump_state ⟨0x01000000, 0, 0⟩ false).1 = false
    ∧ (Runner.dump_state ⟨0x0100000b, 0, 0⟩ false).1 = false :=
  ⟨(c4_verdict_from_xpsr ⟨0x01000003, 2 ^ 30, 0x8200⟩ false).1.mpr (by decide),
   ((c4_verdict_from_xpsr ⟨0x01000003, 2 ^ 30, 0x8200⟩ false).2.1 (by decide)).2.2.2.2.2
      (by decide) (by decide) (by decide),
   ((c4_verdict_from_xpsr ⟨0x01000000, 0, 0⟩ false).2.2.1 (by decide)).1,
   ((c4_verdict_from_xpsr ⟨0x0100000b, 0, 0⟩ false).2.2.2 (by decide) (by decide)).1⟩

/-- Auxiliary characterization of the polling loop for any initial
`was_halted`: a normal exit at iteration `i` requires the `core_halted()`
sample of iteration `i` to be `true`, and — when `i = 0` — the incoming
`was_halted` to be `true`, otherwise the sample of iteration `i - 1` to be
`true`. -/
theorem poll_loop_normal_exit (obs : List PollObs) (was : Bool) (i : Nat)
    (h : poll_loop obs was = LoopExit.normal i) :
    (obs.get? i).map PollObs.halted = some true
    ∧ (i = 0 → was = true)
    ∧ (1 ≤ i → (obs.get? (i - 1)).map PollObs.halted = some true) := by
  induction obs generalizing was i with
  | nil => simp [poll_loop] at h
  | cons o rest ih =>
      by_cases hd : o.deadlineExceeded
      · simp [poll_loop, hd] at h
      · by_cases hh : o.halted && was
        · simp only [poll_loop, hd, hh, if_true, Bool.false_eq_true, if_false] at h
          cases h
          have hha : o.halted = true ∧ was = true := by simpa using hh
          refine ⟨?_, fun _ => hha.2, fun hle => by omega⟩
          simpa using hha.1
        · simp only [poll_loop, hd, hh, Bool.false_eq_true, if_false] at h
          cases hrec : poll_loop rest o.halted with
          | timeout j => rw [hrec] at h; simp [LoopExit.bump] at h
          | running => rw [hrec] at h; simp [LoopExit.bump] at h
          | normal j =>
              rw [hrec] at h
              simp only [LoopExit.bump] at h
              cases h
              obtain ⟨hj, hj0, hj1⟩ := ih _ _ hrec
              refine ⟨by simpa using hj, fun hcontra => by omega, fun _ => ?_⟩
              rcases Nat.eq_zero_or_pos j with hz | hpos
              · subst hz
                simpa using hj0 rfl
              · have := hj1 hpos
                have hidx : j + 1 - 1 = (j - 1) + 1 := by omega
                rw [hidx]
                simpa using this

/-- C5: the polling loop of `Runner::run` never terminates normally on a
single halted observation: whenever the loop (entered with
`was_halted = false`) exits normally at iteration `i`, then `i ≥ 1` and the
halted samples of iterations `i` and `i - 1` are both `true` — one halted
observation followed by a running one resets the condition. -/
theorem c5_two_consecutive_halts (obs : List PollObs) (i : Nat)
    (h : Runner.run_loop obs = LoopExit.normal i) :
    1 ≤ i
    ∧ (obs.get? i).map PollObs.halted = some true
    ∧ (obs.get? (i - 1)).map PollObs.halted = some true := by
  obtain ⟨hi, hi0, hi1⟩ := poll_loop_normal_exit obs false i h
  have h1 : 1 ≤ i := by
    rcases Nat.eq_zero_or_pos i with hz | hpos
    · exact absurd (hi0 hz) (by simp)
    · exact hpos
  exact ⟨h1, hi, hi1 h1⟩

/-- Witness for `c5_two_consecutive_halts`: on the observation trace
running, halted, running, halted, halted (no deadline), the loop exits
normally at iteration 4, and iterations 3 and 4 both sampled halted. -/
theorem c5_two_consecutive_halts_witness :
    Runner.run_loop
        [⟨false, false⟩, ⟨false, true⟩, ⟨false, false⟩, ⟨false, true⟩, ⟨false, true⟩]
      = LoopExit.normal 4
    ∧ (1 ≤ 4
        ∧ (([⟨false, false⟩, ⟨false, true⟩, ⟨false, false⟩, ⟨false, true⟩,
              ⟨false, true⟩] : List PollObs).get? 4).map PollObs.halted = some true
        ∧ (([⟨false, false⟩, ⟨false, true⟩, ⟨false, false⟩, ⟨false, true⟩,
              ⟨false, true⟩] : List PollObs).get? 3).map PollObs.halted = some true) :=
  ⟨by decide,
   c5_two_consecutive_halts
     [⟨false, false⟩, ⟨false, true⟩, ⟨false, false⟩, ⟨false, true⟩, ⟨false, true⟩] 4
     (by decide)⟩

/-- Characterization of the RTT attach loop from an arbitrary starting
attempt `k ≤ NUM_RETRIES` (induction on the remaining attempts
`n = NUM_RETRIES - k`): a successful exit happens on the first non-retry
result, `errControlBlockNotFound` happens exactly when every remaining
attempt reports `ControlBlockNotFound`, and any other error exits on its
first occurrence; all attempts use the scan region `Exact(rtt_addr)`. -/
theorem rtt_attach_loop_spec (attach : ScanRegion → Nat → AttachResult) (rtt_addr : Nat) :
    ∀ n k, NUM_RETRIES - k = n → k ≤ NUM_RETRIES →
      (∀ i, rtt_attach_loop attach rtt_addr (n + 1) k = RttOutcome.attached i →
          k ≤ i ∧ i ≤ NUM_RETRIES ∧ attach (.exact rtt_addr) i = AttachResult.ok
          ∧ ∀ j, k ≤ j → j < i → attach (.exact rtt_addr) j = AttachResult.controlBlockNotFound)
      ∧ (rtt_attach_loop attach rtt_addr (n + 1) k = RttOutcome.errControlBlockNotFound ↔
          ∀ j, k ≤ j → j ≤ NUM_RETRIES →
            attach (.exact rtt_addr) j = AttachResult.controlBlockNotFound)
      ∧ (∀ i, rtt_attach_loop attach rtt_addr (n + 1) k = RttOutcome.errOther i →
          k ≤ i ∧ i ≤ NUM_RETRIES ∧ attach (.exact rtt_addr) i = AttachResult.otherErr
          ∧ ∀ j, k ≤ j → j < i →
              attach (.exact rtt_addr) j = AttachResult.controlBlockNotFound) := by
  intro n
  induction n with
  | zero =>
      intro k hn hk
      have hk10 : k = NUM_RETRIES := by omega
      subst hk10
      cases hatt : attach (.exact rtt_addr) NUM_RETRIES with
      | ok =>
          refine ⟨fun i hi => ?_, ⟨fun habs => ?_, fun hall => ?_⟩, fun i hi => ?_⟩
          · simp only [rtt_attach_loop, hatt] at hi
            cases hi
            exact ⟨le_refl _, le_refl _, hatt, fun j h1 h2 => by omega⟩
          · simp [rtt_attach_loop, hatt] at habs
          · have := hall NUM_RETRIES (le_refl _) (le_refl _)
            rw [this] at hatt
            cases hatt
          · simp [rtt_attach_loop, hatt] at hi
      | controlBlockNotFound =>
          refine ⟨fun i hi => ?_, ⟨fun _ j h1 h2 => ?_, fun _ => ?_⟩, fun i hi => ?_⟩
          · simp [rtt_attach_loop, hatt] at hi
          · have hj : j = NUM_RETRIES := by omega
            exact hj ▸ hatt
          · simp [rtt_attach_loop, hatt]
          · simp [rtt_attach_loop, hatt] at hi
      | otherErr =>
          refine ⟨fun i hi => ?_, ⟨fun habs => ?_, fun hall => ?_⟩, fun i hi => ?_⟩
          · simp [rtt_attach_loop, hatt] at hi
          · simp [rtt_attach_loop, hatt] at habs
          · have := hall NUM_RETRIES (le_refl _) (le_refl _)
            rw [this] at hatt
            cases hatt
          · simp only [rtt_attach_loop, hatt] at hi
            cases hi
            exact ⟨le_refl _, le_refl _, hatt, fun j h1 h2 => by omega⟩
  | succ n ihn =>
      intro k hn hk
      have hklt : k < NUM_RETRIES := by omega
      cases hatt : attach (.exact rtt_addr) k with
      | ok =>
          refine ⟨fun i hi => ?_, ⟨fun habs => ?_, fun hall => ?_⟩, fun i hi => ?_⟩
          · simp only [rtt_attach_loop, hatt] at hi
            cases hi
            exact ⟨le_refl _, by omega, hatt, fun j h1 h2 => by omega⟩
          · simp [rtt_attach_loop, hatt] at habs
          · have := hall k (le_refl _) (by omega)
            rw [this] at hatt
            cases hatt
          · simp [rtt_attach_loop, hatt] at hi
      | controlBlockNotFound =>
          have hstep : rtt_attach_loop attach rtt_addr (n + 1 + 1) k
              = rtt_attach_loop attach rtt_addr (n + 1) (k + 1) := by
            simp [rtt_attach_loop, hatt, hklt]
          obtain ⟨ih1, ih2, ih3⟩ := ihn (k + 1) (by omega) (by omega)
          refine ⟨fun i hi => ?_, ⟨fun hcb => ?_, fun hall => ?_⟩, fun i hi => ?_⟩
          · rw [hstep] at hi
            obtain ⟨ha, hb, hc, hd⟩ := ih1 i hi
            refine ⟨by omega, hb, hc, fun j h1 h2 => ?_⟩
            rcases Nat.lt_or_ge j (k + 1) with hj | hj
            · have : j = k := by omega
              exact this ▸ hatt
            · exact hd j hj h2
          · rw [hstep] at hcb
            intro j h1 h2
            rcases Nat.lt_or_ge j (k + 1) with hj | hj
            · have : j = k := by omega
              exact this ▸ hatt
            · exact ih2.mp hcb j hj h2
          · rw [hstep]
            exact ih2.mpr (fun j h1 h2 => hall j (by omega) h2)
          · rw [hstep] at hi
            obtain ⟨ha, hb, hc, hd⟩ := ih3 i hi
            refine ⟨by omega, hb, hc, fun j h1 h2 => ?_⟩
            rcases Nat.lt_or_ge j (k + 1) with hj | hj
            · have : j = k := by omega
              exact this ▸ hatt
            · exact hd j hj h2
      | otherErr =>
          refine ⟨fun i hi => ?_, ⟨fun habs => ?_, fun hall => ?_⟩, fun i hi => ?_⟩
          · simp [rtt_attach_loop, hatt] at hi
          · simp [rtt_attach_loop, hatt] at habs
          · have := hall k (le_refl _) (by omega)
            rw [this] at hatt
            cases hatt
          · simp only [rtt_attach_loop, hatt] at hi
            cases hi
            exact ⟨le_refl _, by omega, hatt, fun j h1 h2 => by omega⟩

/-- C6: `setup_logging_channel` attempts to attach at exactly the scan
region `Exact(rtt_addr)` at most 11 times (attempt indices 0 through
`NUM_RETRIES = 10`): a success on attempt `i ≤ 10` follows
`ControlBlockNotFound` on every earlier attempt; the loop returns the
`ControlBlockNotFound` error exactly when all 11 attempts report
`ControlBlockNotFound`; and any other attach error is returned on its
first occurrence `i ≤ 10`, every earlier attempt having reported
`ControlBlockNotFound` (i.e. without retrying past it). -/
theorem c6_rtt_attach_retry (attach : ScanRegion → Nat → AttachResult) (rtt_addr : Nat) :
    (∀ i, setup_logging_channel attach rtt_addr = RttOutcome.attached i →
        i ≤ 10 ∧ attach (.exact rtt_addr) i = AttachResult.ok
        ∧ ∀ j < i, attach (.exact rtt_addr) j = AttachResult.controlBlockNotFound)
    ∧ (setup_logging_channel attach rtt_addr = RttOutcome.errControlBlockNotFound ↔
        ∀ j ≤ 10, attach (.exact rtt_addr) j = AttachResult.controlBlockNotFound)
    ∧ (∀ i, setup_logging_channel attach rtt_addr = RttOutcome.errOther i →
        i ≤ 10 ∧ attach (.exact rtt_addr) i = AttachResult.otherErr
        ∧ ∀ j < i, attach (.exact rtt_addr) j = AttachResult.controlBlockNotFound) := by
  obtain ⟨h1, h2, h3⟩ :=
    rtt_attach_loop_spec attach rtt_addr NUM_RETRIES 0 (by simp) (Nat.zero_le _)
  refine ⟨fun i hi => ?_, ?_, fun i hi => ?_⟩
  · obtain ⟨_, hb, hc, hd⟩ := h1 i hi
    exact ⟨hb, hc, fun j hj => hd j (Nat.zero_le j) hj⟩
  · constructor
    · intro hcb j hj
      exact h2.mp hcb j (Nat.zero_le j) hj
    · intro hall
      exact h2.mpr (fun j _ hj => hall j hj)
  · obtain ⟨_, hb, hc, hd⟩ := h3 i hi
    exact ⟨hb, hc, fun j hj => hd j (Nat.zero_le j) hj⟩

/-- Witness for `c6_rtt_attach_retry`: with an attach stub that reports
`ControlBlockNotFound` on attempts 0-2 and succeeds on attempt 3, the loop
attaches on attempt 3; with one that always reports
`ControlBlockNotFound`, it fails with `ControlBlockNotFound` after the 11
attempts; with one that reports another error on attempt 2, it fails
immediately on attempt 2. -/
theorem c6_rtt_attach_retry_witness :
    (3 ≤ 10
      ∧ (fun (_ : ScanRegion) i => if i < 3 then AttachResult.controlBlockNotFound
          else AttachResult.ok) (ScanRegion.exact 0x20000400) 3 = AttachResult.ok
      ∧ ∀ j < 3, (fun (_ : ScanRegion) i => if i < 3 then AttachResult.controlBlockNotFound
          else AttachResult.ok) (ScanRegion.exact 0x20000400) j
            = AttachResult.controlBlockNotFound)
    ∧ setup_logging_channel (fun _ _ => AttachResult.controlBlockNotFound) 0x20000400
        = RttOutcome.errControlBlockNotFound
    ∧ (2 ≤ 10
      ∧ (fun (_ : ScanRegion) i => if i = 2 then AttachResult.otherErr
          else AttachResult.controlBlockNotFound) (ScanRegion.exact 0x20000400) 2
            = AttachResult.otherErr
      ∧ ∀ j < 2, (fun (_ : ScanRegion) i => if i = 2 then AttachResult.otherErr
          else AttachResult.controlBlockNotFound) (ScanRegion.exact 0x20000400) j
            = AttachResult.controlBlockNotFound) :=
  ⟨(c6_rtt_attach_retry
      (fun _ i => if i < 3 then AttachResult.controlBlockNotFound else AttachResult.ok)
      0x20000400).1 3 (by decide),
   (c6_rtt_attach_retry (fun _ _ => AttachResult.controlBlockNotFound) 0x20000400).2.1.mpr
      (fun j _ => rfl),
   (c6_rtt_attach_retry
      (fun _ i => if i = 2 then AttachResult.otherErr else AttachResult.controlBlockNotFound)
      0x20000400).2.2 2 (by decide)⟩

/-- Concrete options for the C7 counterexample: `power_reset` set, a
selector carrying serial `SN1`, and `cycle_delay_seconds` configured to
`0.5` (the `config.rs` default). -/
def c7Opts : ProbeOpts :=
  { probe := some ⟨some ['S', 'N', '1']⟩
    power_reset := true
    cycle_delay_seconds := (1 : ℚ) / 2 }

/-- C7 counterexample: with `cycle_delay_seconds` configured to `0.5`,
`connect` still invokes the USB power cycle with delay `1.0` — the literal
on probe/mod.rs line 80 — not with the configured `cycle_delay_seconds`,
refuting the claim that the configured value is passed as the delay. -/
theorem c7_counterexample :
    connect_power_step c7Opts = PowerStep.powerCycle ['S', 'N', '1'] 1
    ∧ connect_power_step c7Opts
        ≠ PowerStep.powerCycle ['S', 'N', '1'] c7Opts.cycle_delay_seconds := by
  refine ⟨rfl, fun h => ?_⟩
  have : (1 : ℚ) = 1 / 2 := by
    have := (PowerStep.powerCycle.injEq _ _ _ _).mp h
    exact this.2
  norm_num at this

/-- C7 amended: when `power_reset` is set, `connect` requires a probe
selector carrying a serial number — failing with an error when the
selector is absent or has no serial — and invokes the USB power cycle for
that serial with a fixed delay of `1.0` seconds, ignoring the configured
`cycle_delay_seconds`. -/
theorem c7_power_reset_requires_serial (opts : ProbeOpts)
    (hpr : opts.power_reset = true) :
    (opts.probe = none → connect_power_step opts = PowerStep.errNoSerial)
    ∧ (∀ sel, opts.probe = some sel → sel.serial_number = none →
        connect_power_step opts = PowerStep.errNoSerial)
    ∧ (∀ sel serial, opts.probe = some sel → sel.serial_number = some serial →
        connect_power_step opts = PowerStep.powerCycle serial 1) := by
  refine ⟨fun hnone => ?_, fun sel hsel hser => ?_, fun sel serial hsel hser => ?_⟩
  · simp [connect_power_step, hpr, hnone]
  · simp [connect_power_step, hpr, hsel, hser]
  · simp [connect_power_step, hpr, hsel, hser]

/-- Witness for `c7_power_reset_requires_serial`: a selector with no
serial is rejected; one with serial `SN1` gets a power cycle with the
fixed `1.0`-second delay. -/
theorem c7_power_reset_requires_serial_witness :
    connect_power_step ⟨some ⟨none⟩, true, (1 : ℚ) / 2⟩ = PowerStep.errNoSerial
    ∧ connect_power_step c7Opts = PowerStep.powerCycle ['S', 'N', '1'] 1 :=
  ⟨(c7_power_reset_requires_serial ⟨some ⟨none⟩, true, (1 : ℚ) / 2⟩ rfl).2.1 ⟨none⟩ rfl rfl,
   (c7_power_reset_requires_serial c7Opts rfl).2.2 ⟨some ['S', 'N', '1']⟩ ['S', 'N', '1']
      rfl rfl⟩

/-- C9: ELF metadata extraction does not fail on absent or malformed
custom sections — an ELF (that parses as ELF) with neither
`.teleprobe.target` nor `.teleprobe.timeout` yields both fields `None`
with no warning; a `.teleprobe.timeout` section whose length is not 4
yields `timeout = None` with a warning, whatever the target section holds;
and a `.teleprobe.target` section with invalid UTF-8 yields
`target = None` with a warning, whatever the timeout section holds.  In
all three cases the extraction succeeds. -/
theorem c9_elf_metadata_robustness (bad_len bad_utf8 : List Nat)
    (tgt_sec tmo_sec : Option (List Nat))
    (hlen : bad_len.length ≠ 4) (hutf : utf8Valid bad_utf8 = false) :
    ElfMetadata.from_elf true none none = Except.ok (⟨none, none⟩, [])
    ∧ (∃ meta warnings, ElfMetadata.from_elf true tgt_sec (some bad_len)
          = Except.ok (meta, warnings)
        ∧ meta.timeout = none ∧ MetaWarning.timeoutNotU32 ∈ warnings)
    ∧ (∃ meta warnings, ElfMetadata.from_elf true (some bad_utf8) tmo_sec
          = Except.ok (meta, warnings)
        ∧ meta.target = none ∧ MetaWarning.targetNotUtf8 ∈ warnings) := by
  refine ⟨rfl, ?_, ?_⟩
  · cases tgt_sec with
    | none =>
        refine ⟨⟨none, none⟩, [.timeoutNotU32], ?_, rfl, by simp⟩
        simp [ElfMetadata.from_elf, hlen]
    | some data =>
        by_cases he : data.isEmpty
        · refine ⟨⟨none, none⟩, [.timeoutNotU32], ?_, rfl, by simp⟩
          simp [ElfMetadata.from_elf, hlen, he]
        · by_cases hu : utf8Valid data
          · refine ⟨⟨some data, none⟩, [.timeoutNotU32], ?_, rfl, by simp⟩
            simp [ElfMetadata.from_elf, hlen, he, hu]
          · refine ⟨⟨none, none⟩, [.targetNotUtf8, .timeoutNotU32], ?_, rfl, by simp⟩
            simp [ElfMetadata.from_elf, hlen, he, hu]
  · have hne : bad_utf8.isEmpty = false := by
      cases bad_utf8 with
      | nil => exact absurd hutf (by decide)
      | cons b rest => rfl
    cases tmo_sec with
    | none =>
        refine ⟨⟨none, none⟩, [.targetNotUtf8], ?_, rfl, by simp⟩
        simp [ElfMetadata.from_elf, hne, hutf]
    | some data =>
        by_cases hl : data.length = 4
        · refine ⟨⟨none, some (u32_from_le_bytes data)⟩, [.targetNotUtf8], ?_, rfl, by simp⟩
          simp [ElfMetadata.from_elf, hne, hutf, hl]
        · refine ⟨⟨none, none⟩, [.targetNotUtf8, .timeoutNotU32], ?_, rfl, by simp⟩
          simp [ElfMetadata.from_elf, hne, hutf, hl]

/-- Witness for `c9_elf_metadata_robustness`: a 3-byte timeout section and
the lone byte `0xff` (never valid UTF-8) produce `None` fields with the
corresponding warnings; with no sections at all, extraction succeeds with
both fields `None`. -/
theorem c9_elf_metadata_robustness_witness :
    ElfMetadata.from_elf true none none = Except.ok (⟨none, none⟩, [])
    ∧ (∃ meta warnings, ElfMetadata.from_elf true none (some [1, 2, 3])
          = Except.ok (meta, warnings)
        ∧ meta.timeout = none ∧ MetaWarning.timeoutNotU32 ∈ warnings)
    ∧ (∃ meta warnings, ElfMetadata.from_elf true (some [0xff]) none
          = Except.ok (meta, warnings)
        ∧ meta.target = none ∧ MetaWarning.targetNotUtf8 ∈ warnings) :=
  c9_elf_metadata_robustness [1, 2, 3] [0xff] none none (by decide) (by decide)

/-- Parsing inverts formatting for a single hex digit. -/
theorem hexDigitVal_hexChar : ∀ d, d < 16 → hexDigitVal (hexChar d) = some d := by
  decide

/-- A formatted hex digit is neither the separator `':'` nor a sign
`'+'`. -/
theorem hexChar_ne_colon_plus : ∀ d, d < 16 → hexChar d ≠ ':' ∧ hexChar d ≠ '+' := by
  decide

/-- The accumulator of `toHexAux` is simply appended to the digits. -/
theorem toHexAux_append (n : Nat) : ∀ acc, toHexAux n acc = toHexAux n [] ++ acc := by
  induction n using Nat.strong_induction_on with
  | _ n ih =>
      intro acc
      by_cases h : n < 16
      · conv_lhs => rw [toHexAux.eq_def]
        conv_rhs => rw [toHexAux.eq_def]
        simp [h]
      · have hdiv : n / 16 < n := Nat.div_lt_self (by omega) (by omega)
        rw [toHexAux.eq_def]
        simp only [h, dif_neg, not_false_iff]
        rw [ih (n / 16) hdiv (hexChar (n % 16) :: acc)]
        conv_rhs => rw [toHexAux.eq_def]
        simp only [h, dif_neg, not_false_iff]
        rw [ih (n / 16) hdiv (hexChar (n % 16) :: [])]
        simp

/-- Unfolding of `toHex` below 16. -/
theorem toHex_small (n : Nat) (h : n < 16) : toHex n = [hexChar n] := by
  rw [toHex, toHexAux.eq_def]
  simp [h]

/-- Unfolding of `toHex` at 16 and above: most significant digits first. -/
theorem toHex_large (n : Nat) (h : ¬n < 16) :
    toHex n = toHex (n / 16) ++ [hexChar (n % 16)] := by
  rw [toHex, toHexAux.eq_def]
  simp only [h, dif_neg, not_false_iff]
  rw [toHexAux_append (n / 16) [hexChar (n % 16)]]
  rfl

/-- Every character that `{:x}` emits is a hex digit. -/
theorem toHex_chars (n : Nat) : ∀ c ∈ toHex n, ∃ d, d < 16 ∧ c = hexChar d := by
  induction n using Nat.strong_induction_on with
  | _ n ih =>
      by_cases h : n < 16
      · rw [toHex_small n h]
        intro c hc
        simp at hc
        exact ⟨n, h, hc⟩
      · rw [toHex_large n h]
        intro c hc
        rcases List.mem_append.mp hc with hc | hc
        · exact ih (n / 16) (Nat.div_lt_self (by omega) (by omega)) c hc
        · simp at hc
          exact ⟨n % 16, Nat.mod_lt _ (by omega), hc⟩

/-- The hex form of a number never contains the separator `':'`. -/
theorem toHex_no_colon (n : Nat) : ':' ∉ toHex n := by
  intro hc
  obtain ⟨d, hd, he⟩ := toHex_chars n ':' hc
  exact (hexChar_ne_colon_plus d hd).1 he.symm

/-- The hex form of a number is nonempty and starts with a hex digit. -/
theorem toHex_head (n : Nat) : ∃ d cs, toHex n = hexChar d :: cs ∧ d < 16 := by
  induction n using Nat.strong_induction_on with
  | _ n ih =>
      by_cases h : n < 16
      · exact ⟨n, [], toHex_small n h, h⟩
      · obtain ⟨d, cs, hdc, hd⟩ := ih (n / 16) (Nat.div_lt_self (by omega) (by omega))
        exact ⟨d, cs ++ [hexChar (n % 16)], by rw [toHex_large n h, hdc]; rfl, hd⟩

/-- The digit loop of `from_str_radix` distributes over appending. -/
theorem hexAccum_append (xs : List Char) :
    ∀ acc ys, hexAccum acc (xs ++ ys)
      = match hexAccum acc xs with
        | some a => hexAccum a ys
        | none => none := by
  induction xs with
  | nil => intro acc ys; rfl
  | cons c rest ih =>
      intro acc ys
      simp only [List.cons_append, hexAccum]
      cases hexDigitVal c with
      | none => rfl
      | some d =>
          simp only []
          by_cases hov : acc * 16 + d < 65536
          · simp only [hov, if_true]
            exact ih (acc * 16 + d) ys
          · simp [hov]

/-- Feeding the hex digits of `n` to the accumulation loop started at
`acc` yields `acc * 16 ^ (number of digits) + n`, whenever that value fits
in a `u16`. -/
theorem hexAccum_toHex (n : Nat) :
    ∀ acc, acc * 16 ^ (toHex n).length + n < 65536 →
      hexAccum acc (toHex n) = some (acc * 16 ^ (toHex n).length + n) := by
  induction n using Nat.strong_induction_on with
  | _ n ih =>
      intro acc hbound
      by_cases h : n < 16
      · rw [toHex_small n h] at hbound ⊢
        simp only [List.length_cons, List.length_nil, Nat.zero_add, pow_one] at hbound ⊢
        simp only [hexAccum, hexDigitVal_hexChar n h]
        simp [hbound]
      · have hdiv : n / 16 < n := Nat.div_lt_self (by omega) (by omega)
        rw [toHex_large n h] at hbound ⊢
        simp only [List.length_append, List.length_cons, List.length_nil,
          Nat.zero_add] at hbound ⊢
        set L := (toHex (n / 16)).length with hL
        have hpow : (16 : Nat) ^ (L + 1) = 16 ^ L * 16 := pow_succ 16 L
        have hmod : n % 16 < 16 := Nat.mod_lt _ (by omega)
        rw [hpow] at hbound ⊢
        have hassoc : acc * (16 ^ L * 16) = acc * 16 ^ L * 16 := by ring
        rw [hassoc] at hbound ⊢
        have hbound2 : acc * 16 ^ L + n / 16 < 65536 := by omega
        rw [hexAccum_append (toHex (n / 16)) acc [hexChar (n % 16)]]
        rw [ih (n / 16) hdiv acc hbound2]
        simp only [hexAccum, hexDigitVal_hexChar (n % 16) hmod]
        have hval : (acc * 16 ^ L + n / 16) * 16 + n % 16 = acc * 16 ^ L * 16 + n := by
          omega
        have hov : (acc * 16 ^ L + n / 16) * 16 + n % 16 < 65536 := by omega
        simp only [hov, if_true, hval]
        simp [hbound]

/-- Embedding of `u16::from_str_radix(_, 16)` inverts `{:x}` formatting on
every `u16` value. -/
theorem u16_parse_toHex (n : Nat) (h : n < 65536) :
    u16_from_str_radix_16 (toHex n) = some n := by
  obtain ⟨d, cs, hdc, hd⟩ := toHex_head n
  have hacc : hexAccum 0 (toHex n) = some n := by
    have := hexAccum_toHex n 0 (by simpa using h)
    simpa using this
  rw [hdc] at hacc ⊢
  simp only [u16_from_str_radix_16]
  simp [(hexChar_ne_colon_plus d hd).2, hacc]

/-- Any string without the separator is a single `split(':')` fragment. -/
theorem splitColon_no_colon (s : List Char) (h : ':' ∉ s) : splitColon s = [s] := by
  induction s with
  | nil => rfl
  | cons c rest ih =>
      have hc : c ≠ ':' := fun hc => h (hc ▸ List.mem_cons_self c rest)
      have hrest : ':' ∉ rest := fun hr => h (List.mem_cons_of_mem c hr)
      simp only [splitColon, hc, if_false]
      rw [ih hrest]

/-- Splitting at the first separator after a separator-free prefix. -/
theorem splitColon_append (xs : List Char) (h : ':' ∉ xs) (ys : List Char) :
    splitColon (xs ++ ':' :: ys) = xs :: splitColon ys := by
  induction xs with
  | nil => simp [splitColon]
  | cons c rest ih =>
      have hc : c ≠ ':' := fun hc => h (hc ▸ List.mem_cons_self c rest)
      have hrest : ':' ∉ rest := fun hr => h (List.mem_cons_of_mem c hr)
      simp only [List.cons_append, splitColon, hc, if_false]
      rw [show rest.append (':' :: ys) = rest ++ ':' :: ys from rfl, ih hrest]

/-- C8: parsing a probe-selector string and then re-serializing it is the
identity on every canonical input of the three shapes: a serial without
`':'`; `vid:pid` with both fields in lowercase `{:x}` form of a `u16`
value; and `vid:pid:serial`. -/
theorem c8_selector_roundtrip (v p : Nat) (ser : List Char)
    (hv : v < 65536) (hp : p < 65536) (hser : ':' ∉ ser) :
    (ProbeSpecifier.from_str ser).bind ProbeSpecifier.serializeStr = some ser
    ∧ (ProbeSpecifier.from_str (toHex v ++ ':' :: toHex p)).bind ProbeSpecifier.serializeStr
        = some (toHex v ++ ':' :: toHex p)
    ∧ (ProbeSpecifier.from_str
          (toHex v ++ ':' :: (toHex p ++ ':' :: ser))).bind ProbeSpecifier.serializeStr
        = some (toHex v ++ ':' :: (toHex p ++ ':' :: ser)) := by
  refine ⟨?_, ?_, ?_⟩
  · rw [ProbeSpecifier.from_str, splitColon_no_colon ser hser]
    rfl
  · rw [ProbeSpecifier.from_str, splitColon_append (toHex v) (toHex_no_colon v),
      splitColon_no_colon (toHex p) (toHex_no_colon p)]
    simp only [u16_parse_toHex v hv, u16_parse_toHex p hp]
    rfl
  · rw [ProbeSpecifier.from_str, splitColon_append (toHex v) (toHex_no_colon v),
      splitColon_append (toHex p) (toHex_no_colon p),
      splitColon_no_colon ser hser]
    simp only [u16_parse_toHex v hv, u16_parse_toHex p hp]
    simp [ProbeSpecifier.serializeStr, List.append_assoc]

/-- Witness for `c8_selector_roundtrip` at the spec's canonical examples:
serial `ser`, `cafe:1234` (`0xcafe = 51966`, `0x1234 = 4660`), and
`cafe:1234:SN0001`. -/
theorem c8_selector_roundtrip_witness :
    (ProbeSpecifier.from_str ['s', 'e', 'r']).bind ProbeSpecifier.serializeStr
      = some ['s', 'e', 'r']
    ∧ (ProbeSpecifier.from_str (toHex 0xcafe ++ ':' :: toHex 0x1234)).bind
        ProbeSpecifier.serializeStr = some (toHex 0xcafe ++ ':' :: toHex 0x1234)
    ∧ (ProbeSpecifier.from_str
          (toHex 0xcafe ++ ':' :: (toHex 0x1234 ++ ':' ::
            ['S', 'N', '0', '0', '0', '1']))).bind ProbeSpecifier.serializeStr
      = some (toHex 0xcafe ++ ':' :: (toHex 0x1234 ++ ':' ::
            ['S', 'N', '0', '0', '0', '1'])) :=
  ⟨(c8_selector_roundtrip 0xcafe 0x1234 ['s', 'e', 'r'] (by decide) (by decide)
      (by decide)).1,
   (c8_selector_roundtrip 0xcafe 0x1234 ['s', 'e', 'r'] (by decide) (by decide)
      (by decide)).2.1,
   (c8_selector_roundtrip 0xcafe 0x1234 ['S', 'N', '0', '0', '0', '1'] (by decide)
      (by decide) (by decide)).2.2⟩

end Teleprobe
